import Mathlib

/-!
Verification of the stall-detection consumer in
`src/consumers/csv_consumer_mk.py` (buzzline-03-moses).

We shallowly embed the core of the consumer:
* JSON payloads (`Json`) as produced by `json.loads`;
* the bounded rolling window (`pushWindow`), modelling
  `collections.deque(maxlen=window_size)` and `append`;
* the stall detector `detect_stall` (`detectStallE`, with Python's
  possible runtime errors made explicit via `Except`);
* `process_message` (`processMessage`), including its
  `except json.JSONDecodeError` / `except Exception` handlers;
* the consumer run loop in `main` (`runLoop`).

Temperatures are modelled as rationals (`ℚ`).  Python runtime errors that
can be raised inside the `try:` block are modelled with `PyError`:
`valueError` for `max()`/`min()` on an empty sequence, `typeError` for
order comparison / subtraction on non-numeric values, `attributeError`
for `.get` on a non-dict.  The catch-all `except Exception` in
`process_message` only observes *that* an exception occurred, so the
exact `PyError` constructor never influences observable behaviour.
-/

/-- JSON values, as returned by Python's `json.loads`. -/
inductive Json where
  | null : Json
  | bool : Bool → Json
  | num : ℚ → Json
  | str : String → Json
  | arr : List Json → Json
  | obj : List (String × Json) → Json
  deriving Repr

/-- Python runtime errors that the consumer's `try:` block can raise. -/
inductive PyError where
  | valueError : PyError
  | typeError : PyError
  | attributeError : PyError
  deriving Repr, DecidableEq

/-- Python numeric coercion used by `>`/`max`/`min`: JSON numbers are
numbers, Python `bool` is an `int` subtype (`True = 1`, `False = 0`);
every other value is non-numeric. -/
def jNum? : Json → Option ℚ
  | Json.num q => some q
  | Json.bool b => some (if b then 1 else 0)
  | _ => none

/-- `data.get(key)` in `process_message`: on a dict, return the value
bound to `key` (JSON `null` becomes Python `None`, indistinguishable
from an absent key) ; on any non-dict JSON value, `.get` raises
`AttributeError`. -/
def pyGet (j : Json) (key : String) : Except PyError (Option Json) :=
  match j with
  | Json.obj fields =>
    match fields.find? (fun p => p.1 == key) with
    | some (_, Json.null) => Except.ok none
    | some (_, v) => Except.ok (some v)
    | none => Except.ok none
  | _ => Except.error PyError.attributeError

/-- `temperature > 300` with Python semantics: defined for numbers (and
bools), raises `TypeError` otherwise. -/
def pyGtNum (j : Json) (c : ℚ) : Except PyError Bool :=
  match jNum? j with
  | some q => Except.ok (decide (c < q))
  | none => Except.error PyError.typeError

/-- `rolling_window.append(value)` on `deque(maxlen=cap)`: append, and
evict from the left whatever exceeds the capacity (strict FIFO). -/
def pushWindow {α : Type _} (w : List α) (v : α) (cap : ℕ) : List α :=
  (w ++ [v]).drop (w.length + 1 - cap)

/-- Feeding a whole sequence of values into the window, oldest first. -/
def pushAll {α : Type _} (w : List α) (vs : List α) (cap : ℕ) : List α :=
  vs.foldl (fun acc v => pushWindow acc v cap) w

/-- `max(iterable)` over a nonempty list, seeded with the head. -/
def foldMax (x : ℚ) (xs : List ℚ) : ℚ := xs.foldl max x

/-- `min(iterable)` over a nonempty list, seeded with the head. -/
def foldMin (x : ℚ) (xs : List ℚ) : ℚ := xs.foldl min x

/-- `detect_stall(rolling_window_deque)` on a numeric window, with
Python's runtime behaviour made explicit: if the window is shorter than
the configured window size, return `False`; otherwise compute
`max(deque) - min(deque)` — which raises `ValueError` on an empty
deque — and return whether the range is `<=` the stall threshold. -/
def detectStallE (w : List ℚ) (size : ℕ) (thr : ℚ) : Except PyError Bool :=
  if w.length < size then Except.ok false
  else
    match w with
    | [] => Except.error PyError.valueError
    | x :: xs => Except.ok (decide (foldMax x xs - foldMin x xs ≤ thr))

/-- `detect_stall` on the actual deque contents, which are arbitrary
JSON values appended by `process_message`: the length guard runs first;
then `max(deque) - min(deque)` raises `ValueError` on an empty deque and
(possibly after a successful lexicographic `max`/`min`, whose result
feeds a failing `-`) `TypeError` as soon as any non-numeric value is
involved. -/
def detectStallJ (w : List Json) (size : ℕ) (thr : ℚ) : Except PyError Bool :=
  if w.length < size then Except.ok false
  else
    match w.mapM jNum? with
    | none => Except.error PyError.typeError
    | some [] => Except.error PyError.valueError
    | some (x :: xs) => Except.ok (decide (foldMax x xs - foldMin x xs ≤ thr))

/-- The alert-relevant log events emitted by the consumer (the Alert
Sink boundary): `logger.error`, `logger.warning` for high temperature,
and the stall `logger.info`. -/
inductive LogEvent where
  | invalidMessage : LogEvent
  | highTemp : Json → Json → LogEvent
  | stall : Json → LogEvent
  | jsonDecodeError : LogEvent
  | unexpectedError : LogEvent
  | consumerError : LogEvent
  | interruptWarning : LogEvent
  deriving Repr

/-- Whether a log event is an error-level alert. -/
def LogEvent.isError : LogEvent → Bool
  | LogEvent.invalidMessage => true
  | LogEvent.jsonDecodeError => true
  | LogEvent.unexpectedError => true
  | LogEvent.consumerError => true
  | _ => false

/-- Whether a log event is the HIGH TEMP ALERT warning. -/
def LogEvent.isHigh : LogEvent → Bool
  | LogEvent.highTemp _ _ => true
  | _ => false

/-- `process_message(message, rolling_window, window_size)`.

The incoming text is abstracted to `Option Json`: `none` for a payload
on which `json.loads` raises `JSONDecodeError`, `some data` otherwise.
Returns the deque contents after the call together with the emitted log
events.  Control flow of the Python `try:` block:

* decode failure → `except json.JSONDecodeError` logs one error;
* `data.get(...)` on a non-dict raises `AttributeError`, swallowed by
  `except Exception` with one log, window untouched;
* a missing (or `null`-valued) `temperature` or `timestamp` → one
  "Invalid message" error log, window untouched;
* otherwise the value is appended to the deque *first*; then
  `temperature > 300` (a `TypeError` here is swallowed by the catch-all
  after the append has already mutated the deque); then `detect_stall`
  on the updated deque (any error swallowed likewise). -/
def processMessage (msg : Option Json) (w : List Json) (size : ℕ) (thr : ℚ) :
    List Json × List LogEvent :=
  match msg with
  | none => (w, [LogEvent.jsonDecodeError])
  | some data =>
    match pyGet data "temperature" with
    | Except.error _ => (w, [LogEvent.unexpectedError])
    | Except.ok temperature =>
      match pyGet data "timestamp" with
      | Except.error _ => (w, [LogEvent.unexpectedError])
      | Except.ok timestamp =>
        match temperature, timestamp with
        | some t, some ts =>
          let w' := pushWindow w t size
          match pyGtNum t 300 with
          | Except.error _ => (w', [LogEvent.unexpectedError])
          | Except.ok isHigh =>
            let highLogs := if isHigh then [LogEvent.highTemp ts t] else []
            match detectStallJ w' size thr with
            | Except.error _ => (w', highLogs ++ [LogEvent.unexpectedError])
            | Except.ok st =>
              (w', highLogs ++ if st then [LogEvent.stall ts] else [])
        | _, _ => (w, [LogEvent.invalidMessage])

/-- One interaction of `main`'s `for message in consumer` loop with the
outside world: a delivered payload, an exception raised while pulling
from the consumer, or a `KeyboardInterrupt`. -/
inductive LoopEvent where
  | deliver : Option Json → LoopEvent
  | raiseErr : LoopEvent
  | interrupt : LoopEvent

/-- Terminal states of `main`'s loop (after the `finally:` cleanup). -/
inductive FinalState where
  | stoppedNormal : FinalState
  | stoppedInterrupt : FinalState
  | stoppedOnError : FinalState
  deriving Repr, DecidableEq

/-- The `try/except/finally` run loop of `main`: process delivered
messages in order; an exception from the consumer iterator is caught by
`except Exception` (logged, loop over), `KeyboardInterrupt` by its own
handler; `finally:` closes the consumer on every path.  Returns the
terminal state, the final deque contents, and all emitted log events. -/
def runLoop (events : List LoopEvent) (w : List Json) (size : ℕ) (thr : ℚ) :
    FinalState × List Json × List LogEvent :=
  match events with
  | [] => (FinalState.stoppedNormal, w, [])
  | LoopEvent.interrupt :: _ => (FinalState.stoppedInterrupt, w, [LogEvent.interruptWarning])
  | LoopEvent.raiseErr :: _ => (FinalState.stoppedOnError, w, [LogEvent.consumerError])
  | LoopEvent.deliver msg :: rest =>
    let p := processMessage msg w size thr
    let r := runLoop rest p.1 size thr
    (r.1, r.2.1, p.2 ++ r.2.2)

/-- The documented payload shape,
`{"timestamp": "...", "temperature": t}`. -/
def mkReading (ts : String) (t : ℚ) : Json :=
  Json.obj [("timestamp", Json.str ts), ("temperature", Json.num t)]

/-- The tail of log events produced by the stall-detection step of
`process_message`: the catch-all handler logs one unexpected error if
`detect_stall` raised, the stall info line is logged if it returned
`True`, nothing otherwise. -/
def stallLogs (r : Except PyError Bool) (ts : Json) : List LogEvent :=
  match r with
  | Except.error _ => [LogEvent.unexpectedError]
  | Except.ok true => [LogEvent.stall ts]
  | Except.ok false => []

/-! ## Rolling-window lemmas -/

/-- `pushWindow` keeps exactly the last `cap` elements of `w ++ [v]`. -/
theorem pushWindow_eq_drop {α : Type _} (w : List α) (v : α) (cap : ℕ) :
    pushWindow w v cap = (w ++ [v]).drop ((w ++ [v]).length - cap) := by
  simp [pushWindow]

/-- The window never grows beyond the deque's capacity. -/
theorem pushWindow_length_le {α : Type _} (w : List α) (v : α) (cap : ℕ) :
    (pushWindow w v cap).length ≤ cap := by
  rw [pushWindow_eq_drop, List.length_drop]
  omega

/-- Keeping the last `cap` elements twice is the same as doing it once at
the end. -/
theorem drop_last_append {α : Type _} (l m : List α) (cap : ℕ) :
    (l.drop (l.length - cap) ++ m).drop ((l.drop (l.length - cap) ++ m).length - cap)
      = (l ++ m).drop ((l ++ m).length - cap) := by
  rw [← List.drop_append_of_le_length (by omega : l.length - cap ≤ l.length),
    List.drop_drop]
  congr 1
  simp [List.length_drop, List.length_append]
  omega

/-- Feeding a sequence into a window that respects the capacity yields
the last `cap` elements of the concatenated history. -/
theorem pushAll_eq_drop {α : Type _} (vs : List α) (w : List α) (cap : ℕ)
    (h : w.length ≤ cap) :
    pushAll w vs cap = (w ++ vs).drop ((w ++ vs).length - cap) := by
  induction vs generalizing w with
  | nil =>
    simp only [pushAll, List.foldl_nil, List.append_nil]
    rw [(by omega : w.length - cap = 0), List.drop_zero]
  | cons v rest ih =>
    have hstep : pushAll w (v :: rest) cap = pushAll (pushWindow w v cap) rest cap := by
      simp [pushAll]
    rw [hstep, ih (pushWindow w v cap) (pushWindow_length_le w v cap),
      pushWindow_eq_drop, drop_last_append]
    simp [List.append_assoc]

/-- C4: for every sequence of pushes into an initially empty rolling
window, the length never exceeds the capacity, and the resulting window
is exactly the last `cap` values pushed, oldest first (strict FIFO
eviction of the oldest elements). -/
theorem window_capacity_fifo {α : Type _} (vs : List α) (cap : ℕ) :
    (pushAll [] vs cap).length ≤ cap ∧
      pushAll [] vs cap = vs.drop (vs.length - cap) := by
  have h := pushAll_eq_drop vs [] cap (by simp)
  simp only [List.nil_append] at h
  refine ⟨?_, h⟩
  rw [h, List.length_drop]
  omega

/-- C8: only the last `cap` pushed values determine the window state:
any two histories that end in the same suffix of at least `cap` values
produce identical windows, and both agree with pushing just that suffix
into a fresh window. -/
theorem window_history_irrelevant {α : Type _} (h₁ h₂ s : List α) (cap : ℕ)
    (hs : cap ≤ s.length) :
    pushAll [] (h₁ ++ s) cap = pushAll [] (h₂ ++ s) cap ∧
      pushAll [] (h₁ ++ s) cap = pushAll [] s cap := by
  have key : ∀ h : List α, pushAll [] (h ++ s) cap = s.drop (s.length - cap) := by
    intro h
    rw [(window_capacity_fifo (h ++ s) cap).2, List.length_append,
      (by omega : h.length + s.length - cap = h.length + (s.length - cap)),
      List.drop_append]
  rw [key h₁, key h₂, (window_capacity_fifo s cap).2]
  exact ⟨rfl, rfl⟩

/-- Closed instance of `window_history_irrelevant`: pushing the suffix
`[4,5,6,7,8]` after either history `[1,2,3]` or `[9]` (capacity 5)
yields the same window as pushing the suffix alone. -/
theorem window_history_irrelevant_witness :
    pushAll ([] : List ℚ) ([1, 2, 3] ++ [4, 5, 6, 7, 8]) 5
        = pushAll [] ([9] ++ [4, 5, 6, 7, 8]) 5 ∧
      pushAll ([] : List ℚ) ([1, 2, 3] ++ [4, 5, 6, 7, 8]) 5
        = pushAll [] [4, 5, 6, 7, 8] 5 :=
  window_history_irrelevant [1, 2, 3] [9] [4, 5, 6, 7, 8] 5 (by decide)

/-! ## Stall-detector lemmas -/

/-- Every element of a nonempty list is bounded by `max(...)`. -/
theorem le_foldMax (x : ℚ) (xs : List ℚ) : ∀ a ∈ x :: xs, a ≤ foldMax x xs := by
  induction xs generalizing x with
  | nil => intro a ha; simp at ha; simp [foldMax, ha]
  | cons y ys ih =>
    intro a ha
    have hstep : foldMax x (y :: ys) = foldMax (max x y) ys := by simp [foldMax]
    rw [hstep]
    rcases List.mem_cons.mp ha with hax | ha2
    · calc a = x := hax
        _ ≤ max x y := le_max_left x y
        _ ≤ foldMax (max x y) ys := ih (max x y) _ (List.mem_cons_self _ _)
    · rcases List.mem_cons.mp ha2 with hay | hays
      · calc a = y := hay
          _ ≤ max x y := le_max_right x y
          _ ≤ foldMax (max x y) ys := ih (max x y) _ (List.mem_cons_self _ _)
      · exact ih (max x y) a (List.mem_cons_of_mem _ hays)

/-- `max(...)` of a nonempty list is one of its elements. -/
theorem foldMax_mem (x : ℚ) (xs : List ℚ) : foldMax x xs ∈ x :: xs := by
  induction xs generalizing x with
  | nil => simp [foldMax]
  | cons y ys ih =>
    have hstep : foldMax x (y :: ys) = foldMax (max x y) ys := by simp [foldMax]
    rw [hstep]
    rcases List.mem_cons.mp (ih (max x y)) with hhd | htl
    · rcases max_choice x y with hx | hy
      · rw [hhd, hx]; exact List.mem_cons_self _ _
      · rw [hhd, hy]; exact List.mem_cons_of_mem _ (List.mem_cons_self _ _)
    · exact List.mem_cons_of_mem _ (List.mem_cons_of_mem _ htl)

/-- Every element of a nonempty list is bounded below by `min(...)`. -/
theorem foldMin_le (x : ℚ) (xs : List ℚ) : ∀ a ∈ x :: xs, foldMin x xs ≤ a := by
  induction xs generalizing x with
  | nil => intro a ha; simp at ha; simp [foldMin, ha]
  | cons y ys ih =>
    intro a ha
    have hstep : foldMin x (y :: ys) = foldMin (min x y) ys := by simp [foldMin]
    rw [hstep]
    rcases List.mem_cons.mp ha with hax | ha2
    · calc foldMin (min x y) ys ≤ min x y := ih (min x y) _ (List.mem_cons_self _ _)
        _ ≤ x := min_le_left x y
        _ = a := hax.symm
    · rcases List.mem_cons.mp ha2 with hay | hays
      · calc foldMin (min x y) ys ≤ min x y := ih (min x y) _ (List.mem_cons_self _ _)
          _ ≤ y := min_le_right x y
          _ = a := hay.symm
      · exact ih (min x y) a (List.mem_cons_of_mem _ hays)

/-- `min(...)` of a nonempty list is one of its elements. -/
theorem foldMin_mem (x : ℚ) (xs : List ℚ) : foldMin x xs ∈ x :: xs := by
  induction xs generalizing x with
  | nil => simp [foldMin]
  | cons y ys ih =>
    have hstep : foldMin x (y :: ys) = foldMin (min x y) ys := by simp [foldMin]
    rw [hstep]
    rcases List.mem_cons.mp (ih (min x y)) with hhd | htl
    · rcases min_choice x y with hx | hy
      · rw [hhd, hx]; exact List.mem_cons_self _ _
      · rw [hhd, hy]; exact List.mem_cons_of_mem _ (List.mem_cons_self _ _)
    · exact List.mem_cons_of_mem _ (List.mem_cons_of_mem _ htl)

/-- On a nonempty full window the detector returns exactly the inclusive
range comparison. -/
theorem detectStallE_full (x : ℚ) (xs : List ℚ) (size : ℕ) (thr : ℚ)
    (hlen : (x :: xs).length = size) :
    detectStallE (x :: xs) size thr
      = Except.ok (decide (foldMax x xs - foldMin x xs ≤ thr)) := by
  simp only [detectStallE, hlen]
  rw [if_neg (lt_irrefl size)]

/-- A positive window size means the detector always returns a Boolean:
either the length guard fires or the window is nonempty. -/
theorem detectStallE_ok_of_pos (w : List ℚ) (size : ℕ) (thr : ℚ)
    (hpos : 0 < size) : ∃ b, detectStallE w size thr = Except.ok b := by
  by_cases hlt : w.length < size
  · exact ⟨false, by simp [detectStallE, hlt]⟩
  · match w with
    | [] => exact absurd hpos (by simpa using hlt)
    | x :: xs =>
      exact ⟨decide (foldMax x xs - foldMin x xs ≤ thr),
        by simp only [detectStallE, if_neg hlt]⟩

/-- The range comparison on a full window is equivalent to every pairwise
difference being within the threshold. -/
theorem detectStallE_true_iff (w : List ℚ) (size : ℕ) (thr : ℚ)
    (hlen : w.length = size) (hpos : 0 < size) :
    (detectStallE w size thr = Except.ok true ↔ ∀ x ∈ w, ∀ y ∈ w, x - y ≤ thr) := by
  match w with
  | [] => exact absurd hpos (by simp_all)
  | x :: xs =>
    rw [detectStallE_full x xs size thr hlen]
    constructor
    · intro h a ha b hb
      simp only [Except.ok.injEq, decide_eq_true_eq] at h
      have h1 := le_foldMax x xs a ha
      have h2 := foldMin_le x xs b hb
      linarith
    · intro hpair
      have := hpair (foldMax x xs) (foldMax_mem x xs) (foldMin x xs) (foldMin_mem x xs)
      simp [this]

/-- C2 (amended): on every full window of positive size, `detect_stall`
returns `true` exactly when `max(window) - min(window) <= threshold`
(equivalently, every pairwise difference is within the threshold; the
comparison is inclusive).  A full window of all-identical values with
threshold `0` yields `true`, and — provided the window holds at least
two slots — changing any single value by more than the threshold yields
`false`. -/
theorem detect_stall_range_iff :
    (∀ (w : List ℚ) (size : ℕ) (thr : ℚ), w.length = size → 0 < size →
      (detectStallE w size thr = Except.ok true ↔ ∀ x ∈ w, ∀ y ∈ w, x - y ≤ thr)) ∧
    (∀ (size : ℕ) (v : ℚ), 0 < size →
      detectStallE (List.replicate size v) size 0 = Except.ok true) ∧
    (∀ (size i : ℕ) (v u thr : ℚ), 2 ≤ size → i < size → thr < |u - v| →
      detectStallE ((List.replicate size v).set i u) size thr = Except.ok false) := by
  refine ⟨fun w size thr hlen hpos => detectStallE_true_iff w size thr hlen hpos,
    fun size v hpos => ?_, fun size i v u thr h2 hi hthr => ?_⟩
  · rw [detectStallE_true_iff (List.replicate size v) size 0 (List.length_replicate _ _) hpos]
    intro x hx y hy
    rw [List.eq_of_mem_replicate hx, List.eq_of_mem_replicate hy]
    simp
  · have hpos : 0 < size := by omega
    have hlen : ((List.replicate size v).set i u).length = size := by
      simp [List.length_set, List.length_replicate]
    obtain ⟨b, hb⟩ := detectStallE_ok_of_pos ((List.replicate size v).set i u) size thr hpos
    have hu : u ∈ (List.replicate size v).set i u := by
      have hiu : i < ((List.replicate size v).set i u).length := by rw [hlen]; exact hi
      have hval : ((List.replicate size v).set i u)[i] = u := by
        rw [List.getElem_set]; simp
      have hmem := List.getElem_mem hiu
      rwa [hval] at hmem
    have hv : v ∈ (List.replicate size v).set i u := by
      obtain ⟨j, hji, hjlen⟩ : ∃ j, j ≠ i ∧ j < size := by
        match i with
        | 0 => exact ⟨1, by omega, by omega⟩
        | k + 1 => exact ⟨0, by omega, by omega⟩
      have hjlen' : j < ((List.replicate size v).set i u).length := by rw [hlen]; exact hjlen
      have hval : ((List.replicate size v).set i u)[j] = v := by
        rw [List.getElem_set_ne (Ne.symm hji)]
        simp
      have hmem := List.getElem_mem hjlen'
      rwa [hval] at hmem
    match b with
    | false => exact hb
    | true =>
      exfalso
      have hpair := (detectStallE_true_iff _ size thr hlen hpos).mp hb
      have h1 := hpair u hu v hv
      have h2 := hpair v hv u hu
      rcases abs_cases (u - v) with ⟨habs, _⟩ | ⟨habs, _⟩
      · rw [habs] at hthr; linarith
      · rw [habs] at hthr; linarith

/-- Closed instance of `detect_stall_range_iff` at the spec's
end-to-end scenarios: window size 5, threshold 0.2; the window
`[200, 200.1, 200.05, 200.15, 200.1]` is stalled (range 0.15 ≤ 0.2). -/
theorem detect_stall_range_iff_witness :
    detectStallE [200, 200.1, 200.05, 200.15, 200.1] 5 (2/10) = Except.ok true :=
  (detect_stall_range_iff.1 [200, 200.1, 200.05, 200.15, 200.1] 5 (2/10)
    (by simp) (by norm_num)).mpr (by
      intro x hx y hy
      fin_cases hx <;> fin_cases hy <;> norm_num)

/-- Counterexample to C2 as stated: with window size 1, the full
all-identical window `[5]` with threshold 0 is stalled; replacing its
single value by `100` — a change of 95, far more than the threshold —
still yields `true` (a singleton window always has range 0), where the
claim predicts `false`. -/
theorem detect_stall_single_slot_counterexample :
    detectStallE ((List.replicate 1 (5:ℚ)).set 0 100) 1 0 = Except.ok true ∧
      detectStallE (List.replicate 1 (5:ℚ)) 1 0 = Except.ok true ∧
      (0:ℚ) < |100 - 5| := by
  refine ⟨?_, ?_, by norm_num⟩
  · simp [List.replicate, detectStallE, foldMax, foldMin]
  · simp [List.replicate, detectStallE, foldMax, foldMin]

/-- C3: on any window strictly shorter than the configured window size
the detector returns `false` — whatever the values (numeric or even
arbitrary JSON deque contents) and whatever the threshold. -/
theorem detect_stall_insufficient_data (size : ℕ) (thr : ℚ) (w : List ℚ)
    (wj : List Json) (hw : w.length < size) (hwj : wj.length < size) :
    detectStallE w size thr = Except.ok false ∧
      detectStallJ wj size thr = Except.ok false := by
  constructor
  · simp only [detectStallE, if_pos hw]
  · simp only [detectStallJ, if_pos hwj]

/-- Closed instance of `detect_stall_insufficient_data`: four readings
in a five-slot window are never reported as a stall. -/
theorem detect_stall_insufficient_data_witness :
    ([200, 200, 200, 200] : List ℚ).length < 5 ∧
      detectStallE [200, 200, 200, 200] 5 0 = Except.ok false ∧
      detectStallJ [Json.num 200] 5 0 = Except.ok false := by
  refine ⟨by decide, ?_, ?_⟩
  · exact (detect_stall_insufficient_data 5 0 [200, 200, 200, 200] [Json.num 200]
      (by decide) (by decide)).1
  · exact (detect_stall_insufficient_data 5 0 [200, 200, 200, 200] [Json.num 200]
      (by decide) (by decide)).2

/-- C7: with a positive configured window size, `detect_stall` can never
reach the empty-window `max()`/`min()` error: the length guard returns
`false` first, so the detector always returns a Boolean. -/
theorem detect_stall_no_empty_range (w : List ℚ) (size : ℕ) (thr : ℚ)
    (hpos : 0 < size) : ∃ b, detectStallE w size thr = Except.ok b :=
  detectStallE_ok_of_pos w size thr hpos

/-- Closed instance of `detect_stall_no_empty_range`: the empty window
with the default window size 5 yields a Boolean, not a `ValueError`. -/
theorem detect_stall_no_empty_range_witness :
    0 < 5 ∧ ∃ b, detectStallE [] 5 (2/10) = Except.ok b :=
  ⟨by decide, detect_stall_no_empty_range [] 5 (2/10) (by decide)⟩

/-! ## process_message lemmas -/

/-- `dict.get` never raises on a dict. -/
theorem pyGet_obj_ok (fs : List (String × Json)) (key : String) :
    ∃ o, pyGet (Json.obj fs) key = Except.ok o := by
  simp only [pyGet]
  cases hf : fs.find? (fun p => p.1 == key) with
  | none => exact ⟨none, rfl⟩
  | some p =>
    obtain ⟨k, v⟩ := p
    cases v <;> exact ⟨_, rfl⟩

/-- No stall-step log event is the high-temperature warning. -/
theorem stallLogs_not_high (r : Except PyError Bool) (ts : Json) :
    (stallLogs r ts).filter LogEvent.isHigh = [] := by
  cases r with
  | error e => rfl
  | ok b => cases b <;> rfl

/-- Shape of `process_message` on a successfully parsed numeric reading:
the temperature is appended to the deque, the high-temperature warning
fires iff the raw value exceeds 300, and the stall step contributes its
own (never high-temperature) log events. -/
theorem processMessage_parsed (data t ts : Json) (q : ℚ) (w : List Json)
    (size : ℕ) (thr : ℚ)
    (ht : pyGet data "temperature" = Except.ok (some t))
    (hts : pyGet data "timestamp" = Except.ok (some ts))
    (hq : jNum? t = some q) :
    processMessage (some data) w size thr =
      (pushWindow w t size,
        (if 300 < q then [LogEvent.highTemp ts t] else []) ++
          stallLogs (detectStallJ (pushWindow w t size) size thr) ts) := by
  simp only [processMessage, ht, hts, pyGtNum, hq]
  cases hds : detectStallJ (pushWindow w t size) size thr with
  | error e => simp [stallLogs]
  | ok st => cases st <;> simp [stallLogs]

/-- `process_message` on a payload that decodes but has a missing (or
`null`) `temperature`: one "Invalid message" error, window untouched. -/
theorem processMessage_missing_temperature (data : Json) (w : List Json)
    (size : ℕ) (thr : ℚ) (ht : pyGet data "temperature" = Except.ok none) :
    processMessage (some data) w size thr = (w, [LogEvent.invalidMessage]) := by
  have hobj : ∃ fs, data = Json.obj fs := by
    cases data <;> first | exact ⟨_, rfl⟩ | (exfalso; simp [pyGet] at ht)
  obtain ⟨fs, rfl⟩ := hobj
  obtain ⟨o, ho⟩ := pyGet_obj_ok fs "timestamp"
  simp only [processMessage, ht, ho]

/-- `process_message` on a payload that decodes but has a missing (or
`null`) `timestamp`: one "Invalid message" error, window untouched. -/
theorem processMessage_missing_timestamp (data : Json) (tv : Option Json)
    (w : List Json) (size : ℕ) (thr : ℚ)
    (ht : pyGet data "temperature" = Except.ok tv)
    (hts : pyGet data "timestamp" = Except.ok none) :
    processMessage (some data) w size thr = (w, [LogEvent.invalidMessage]) := by
  simp only [processMessage, ht, hts]

/-- `process_message` on a payload whose two fields are present but
whose temperature is non-numeric: the raw value is appended to the deque
*before* `temperature > 300` raises `TypeError`, so the window is
mutated and the catch-all handler logs one unexpected error. -/
theorem processMessage_nonnumeric_temperature (data t ts : Json)
    (w : List Json) (size : ℕ) (thr : ℚ)
    (ht : pyGet data "temperature" = Except.ok (some t))
    (hts : pyGet data "timestamp" = Except.ok (some ts))
    (hq : jNum? t = none) :
    processMessage (some data) w size thr
      = (pushWindow w t size, [LogEvent.unexpectedError]) := by
  simp only [processMessage, ht, hts, pyGtNum, hq]

/-! ## Claim theorems on process_message and the run loop -/

/-- C5: the high-temperature warning fires exactly when the reading is
strictly greater than 300: for every window state and threshold, a
documented-format reading triggers the warning iff its value exceeds
300; in particular a reading of exactly 300 does not trigger it and a
reading of 300.01 does. -/
theorem high_temp_strict_boundary (w : List Json) (size : ℕ) (thr : ℚ) (ts : String) :
    (∀ q : ℚ, ((processMessage (some (mkReading ts q)) w size thr).2.any LogEvent.isHigh
        = true ↔ 300 < q)) ∧
    (processMessage (some (mkReading ts 300)) w size thr).2.any LogEvent.isHigh = false ∧
    (processMessage (some (mkReading ts 300.01)) w size thr).2.any LogEvent.isHigh = true := by
  have hkey : ∀ q : ℚ, ((processMessage (some (mkReading ts q)) w size thr).2.any
      LogEvent.isHigh = true ↔ 300 < q) := by
    intro q
    rw [processMessage_parsed (mkReading ts q) (Json.num q) (Json.str ts) q w size thr
      (by simp [mkReading, pyGet]) (by simp [mkReading, pyGet]) rfl]
    have hstall : (stallLogs (detectStallJ (pushWindow w (Json.num q) size) size thr)
        (Json.str ts)).any LogEvent.isHigh = false := by
      have h := stallLogs_not_high (detectStallJ (pushWindow w (Json.num q) size) size thr)
        (Json.str ts)
      cases hs : stallLogs (detectStallJ (pushWindow w (Json.num q) size) size thr)
          (Json.str ts) with
      | nil => rfl
      | cons e es =>
        rw [hs] at h
        simp only [List.filter_eq_nil_iff] at h
        simp only [List.any_eq_false]
        intro x hx
        simp [h x hx]
    constructor
    · intro h
      by_contra hq
      rw [if_neg hq] at h
      simp [hstall] at h
    · intro hq
      rw [if_pos hq]
      simp [LogEvent.isHigh]
  refine ⟨hkey, ?_, ?_⟩
  · have := (hkey 300).not
    simp only [Bool.not_eq_true] at this
    exact this.mpr (by norm_num)
  · exact (hkey 300.01).mpr (by norm_num)

/-- C9: every successfully parsed reading whose numeric temperature
exceeds 300 emits exactly one high-temperature alert, tagged with the
reading's timestamp value, whatever the window contents, its fullness,
or the stall detector's outcome. -/
theorem high_temp_alert_once (data t ts : Json) (q : ℚ) (w : List Json)
    (size : ℕ) (thr : ℚ)
    (ht : pyGet data "temperature" = Except.ok (some t))
    (hts : pyGet data "timestamp" = Except.ok (some ts))
    (hq : jNum? t = some q) (hhigh : 300 < q) :
    (processMessage (some data) w size thr).2.filter LogEvent.isHigh
      = [LogEvent.highTemp ts t] := by
  rw [processMessage_parsed data t ts q w size thr ht hts hq]
  simp only [List.filter_append, stallLogs_not_high, List.append_nil, if_pos hhigh]
  rfl

/-- Closed instance of `high_temp_alert_once`: the spec's end-to-end
scenario 4, a reading of 310 on a partially full window. -/
theorem high_temp_alert_once_witness :
    (processMessage (some (mkReading "2025-01-11T18:15:00Z" 310)) [Json.num 200] 5
        (2/10)).2.filter LogEvent.isHigh
      = [LogEvent.highTemp (Json.str "2025-01-11T18:15:00Z") (Json.num 310)] :=
  high_temp_alert_once (mkReading "2025-01-11T18:15:00Z" 310) (Json.num 310)
    (Json.str "2025-01-11T18:15:00Z") 310 [Json.num 200] 5 (2/10)
    (by simp [mkReading, pyGet]) (by simp [mkReading, pyGet]) rfl (by norm_num)

/-- C1 (amended): a payload that fails JSON decoding, or decodes to a
record whose `temperature` or `timestamp` is missing (or bound to
`null`), leaves the rolling window unchanged, emits exactly one
error alert, and never stops the loop — the next event is processed the
same way.  A payload carrying both fields whose temperature is non-null
but non-numeric, however, *is* appended to the window before the `> 300`
comparison fails, and the emitted alert is the catch-all unexpected
error, not a parse error. -/
theorem parse_failure_skips_event :
    (∀ (w : List Json) (size : ℕ) (thr : ℚ),
      processMessage none w size thr = (w, [LogEvent.jsonDecodeError])) ∧
    (∀ (data : Json) (w : List Json) (size : ℕ) (thr : ℚ),
      pyGet data "temperature" = Except.ok none →
      processMessage (some data) w size thr = (w, [LogEvent.invalidMessage])) ∧
    (∀ (data : Json) (tv : Option Json) (w : List Json) (size : ℕ) (thr : ℚ),
      pyGet data "temperature" = Except.ok tv →
      pyGet data "timestamp" = Except.ok none →
      processMessage (some data) w size thr = (w, [LogEvent.invalidMessage])) ∧
    (∀ (data t ts : Json) (w : List Json) (size : ℕ) (thr : ℚ),
      pyGet data "temperature" = Except.ok (some t) →
      pyGet data "timestamp" = Except.ok (some ts) →
      jNum? t = none →
      processMessage (some data) w size thr
        = (pushWindow w t size, [LogEvent.unexpectedError])) ∧
    (∀ (msg : Option Json) (rest : List LoopEvent) (w : List Json) (size : ℕ) (thr : ℚ),
      (runLoop (LoopEvent.deliver msg :: rest) w size thr).1
        = (runLoop rest (processMessage msg w size thr).1 size thr).1) :=
  ⟨fun _ _ _ => rfl,
   fun data w size thr ht => processMessage_missing_temperature data w size thr ht,
   fun data tv w size thr ht hts => processMessage_missing_timestamp data tv w size thr ht hts,
   fun data t ts w size thr ht hts hq =>
     processMessage_nonnumeric_temperature data t ts w size thr ht hts hq,
   fun _ _ _ _ _ => rfl⟩

/-- Closed instance of `parse_failure_skips_event`: the spec's
end-to-end scenario 3 — a decoded record with no `temperature` field
leaves the window untouched and produces one invalid-message error. -/
theorem parse_failure_skips_event_witness :
    processMessage (some (Json.obj [("timestamp", Json.str "2025-01-11T18:15:00Z")]))
        [Json.num 200] 5 (2/10) = ([Json.num 200], [LogEvent.invalidMessage]) :=
  parse_failure_skips_event.2.1 (Json.obj [("timestamp", Json.str "2025-01-11T18:15:00Z")])
    [Json.num 200] 5 (2/10) (by simp [pyGet])

/-- Counterexample to C1 as stated: the malformed payload
`{"timestamp": "2025-01-11T18:15:00Z", "temperature": "oops"}` carries
no numeric temperature, yet processing it *changes* the rolling window
(the string is appended before `"oops" > 300` raises), and the single
alert emitted is the catch-all unexpected error, not a parse error. -/
theorem parse_failure_mutates_window_counterexample :
    processMessage (some (Json.obj [("timestamp", Json.str "2025-01-11T18:15:00Z"),
        ("temperature", Json.str "oops")])) [] 5 (2/10)
      = ([Json.str "oops"], [LogEvent.unexpectedError]) ∧
      ([Json.str "oops"] : List Json) ≠ ([] : List Json) :=
  ⟨rfl, by simp⟩

/-- C10: a decoded object whose `temperature` or `timestamp` field is
present but bound to JSON `null` is handled exactly like one with the
field absent: the window is not touched, neither rule is evaluated, and
the only output is the single invalid-message error log. -/
theorem null_field_treated_as_missing (fs : List (String × Json))
    (w : List Json) (size : ℕ) (thr : ℚ) (k : String)
    (h : fs.find? (fun p => p.1 == "temperature") = some (k, Json.null) ∨
         fs.find? (fun p => p.1 == "timestamp") = some (k, Json.null)) :
    processMessage (some (Json.obj fs)) w size thr = (w, [LogEvent.invalidMessage]) := by
  rcases h with h | h
  · exact processMessage_missing_temperature (Json.obj fs) w size thr (by simp [pyGet, h])
  · obtain ⟨tv, htv⟩ := pyGet_obj_ok fs "temperature"
    exact processMessage_missing_timestamp (Json.obj fs) tv w size thr htv
      (by simp [pyGet, h])

/-- Closed instance of `null_field_treated_as_missing`: a record with
`"temperature": null` is skipped with one invalid-message error. -/
theorem null_field_treated_as_missing_witness :
    processMessage (some (Json.obj [("temperature", Json.null),
        ("timestamp", Json.str "2025-01-11T18:15:00Z")])) [Json.num 200] 5 (2/10)
      = ([Json.num 200], [LogEvent.invalidMessage]) :=
  null_field_treated_as_missing
    [("temperature", Json.null), ("timestamp", Json.str "2025-01-11T18:15:00Z")]
    [Json.num 200] 5 (2/10) "temperature" (Or.inl (by simp))

/-- C6 (amended): an exception raised while *pulling* from the consumer
iterator is fatal for the loop — it is logged and the loop stops in the
stopping-on-error state without touching the remaining events; but an
unexpected exception raised while *processing* a delivered event is
swallowed by the catch-all handler inside `process_message`, so the
delivered event never decides the terminal state — the loop carries on
with the remaining events. -/
theorem run_loop_error_classification :
    (∀ (rest : List LoopEvent) (w : List Json) (size : ℕ) (thr : ℚ),
      runLoop (LoopEvent.raiseErr :: rest) w size thr
        = (FinalState.stoppedOnError, w, [LogEvent.consumerError])) ∧
    (∀ (msg : Option Json) (rest : List LoopEvent) (w : List Json) (size : ℕ) (thr : ℚ),
      (runLoop (LoopEvent.deliver msg :: rest) w size thr).1
        = (runLoop rest (processMessage msg w size thr).1 size thr).1) :=
  ⟨fun _ _ _ _ => rfl, fun _ _ _ _ _ => rfl⟩

/-- Counterexample to C6 as stated: the payload `5` decodes fine but
`(5).get(...)` raises an unexpected, non-parse `AttributeError`; the
claim predicts the loop stops in the stopping-on-error state, yet the
run loop logs the unexpected error, then processes the *next* event
(the reading 250 lands in the window) and terminates normally. -/
theorem run_loop_processing_error_counterexample :
    runLoop [LoopEvent.deliver (some (Json.num 5)),
        LoopEvent.deliver (some (mkReading "2025-01-11T18:16:00Z" 250))] [] 5 (2/10)
      = (FinalState.stoppedNormal, [Json.num 250], [LogEvent.unexpectedError]) ∧
      FinalState.stoppedNormal ≠ FinalState.stoppedOnError :=
  ⟨rfl, by decide⟩
